import Mathlib

/-!
Verification development for the arcan frameserver transport and raster
decode protocol.  The definitions are shallow embeddings of the C sources:
the cell raster decoder raster_tobuf from src/platform/egl/video.c, and the
libretro frameserver callbacks (video publish, audio accumulation, label
translation) from the C source embedded in src/doc/set_led_rgb.lua.
Machine integers are modelled as Nat or Int; byte buffers are lists of
byte values; calls into the external glyph and box drawing primitives are
recorded as draw events, since their internals are external collaborators.
-/

namespace Arcan

/-! ## Wire sizes and constants of the raster protocol -/

/-- Wire size of the packed raster header.  Modelled from the spec: the
header raster.h defining raster_hdr_sz is not under src; the spec gives the
packed layout flags u8, lines u16, cells u16, data_sz u32, cursor_state u8,
bgc 4 bytes, 14 bytes in total. -/
def raster_hdr_sz : Nat := 14

/-- Wire size of a packed raster line record: start_line u16, offset u16,
ncells u16.  Modelled from the spec (raster.h not under src). -/
def raster_line_sz : Nat := 6

/-- Wire size of a packed cell record: 3 bytes foreground, 3 bytes
background, attribute byte, reserved byte, 4 byte codepoint.  Modelled from
the spec (raster.h not under src). -/
def raster_cell_sz : Nat := 12

/-- Attribute bit positions.  Modelled from the spec: raster.h is not under
src; the spec lists the attribute bits in the order CURSOR, BOLD, ITALIC,
UNDERLINE, STRIKETHROUGH, SKIP. -/
def CATTR_CURSOR : Nat := 0

def CATTR_BOLD : Nat := 1

def CATTR_ITALIC : Nat := 2

def CATTR_UNDERLINE : Nat := 3

def CATTR_STRIKETHROUGH : Nat := 4

def CATTR_SKIP : Nat := 5

/-- Header flag bit selecting dirty-frame mode.  Modelled from the spec:
flags u8 with bit0 meaning dirty-frame. -/
def RPACK_DFRAME : Nat := 1

/-- The SHMIF_RGBA pixel packing macro of the shmif interface (external),
modelled as the usual injective channel packing. -/
def SHMIF_RGBA (r g b a : Nat) : Nat := ((a * 256 + b) * 256 + g) * 256 + r

/-! ## Byte buffer access

The C decoder walks a byte buffer with a pointer; reads are modelled with a
default of 0 when an index lies beyond the supplied list.  The control flow
of the decoder never depends on bytes read out of bounds: the size counter
it maintains is decremented independently of the bytes read. -/

def byteAt (buf : List Nat) (i : Nat) : Nat := buf.getD i 0

def readU16 (buf : List Nat) (i : Nat) : Nat :=
  byteAt buf i + 256 * byteAt buf (i + 1)

def readU32 (buf : List Nat) (i : Nat) : Nat :=
  byteAt buf i + 256 * byteAt buf (i + 1) + 65536 * byteAt buf (i + 2) +
    16777216 * byteAt buf (i + 3)

/-! ## Cells and the raster header -/

structure TuiCell where
  fc : Nat
  bc : Nat
  ucs4 : Nat
  attr : Nat
  deriving DecidableEq

/-- Translation of unpack_cell: foreground from bytes 0..2 with alpha 0xff,
background from bytes 3..5 with the alpha taken from the header background,
attribute from byte 6, codepoint little endian from bytes 8..11. -/
def unpack_cell (buf : List Nat) (pos : Nat) (alpha : Nat) : TuiCell :=
  { fc := SHMIF_RGBA (byteAt buf pos) (byteAt buf (pos + 1)) (byteAt buf (pos + 2)) 255
    bc := SHMIF_RGBA (byteAt buf (pos + 3)) (byteAt buf (pos + 4)) (byteAt buf (pos + 5)) alpha
    attr := byteAt buf (pos + 6)
    ucs4 := readU32 buf (pos + 8) }

structure TuiRasterHeader where
  flags : Nat
  lines : Nat
  cells : Nat
  data_sz : Nat
  cursor_state : Nat
  bgc0 : Nat
  bgc1 : Nat
  bgc2 : Nat
  bgc3 : Nat
  deriving DecidableEq

/-- Parse of the packed header at the start of the buffer (struct copy in
the source). -/
def hdrOf (buf : List Nat) : TuiRasterHeader :=
  { flags := byteAt buf 0
    lines := readU16 buf 1
    cells := readU16 buf 3
    data_sz := readU32 buf 5
    cursor_state := byteAt buf 9
    bgc0 := byteAt buf 10
    bgc1 := byteAt buf 11
    bgc2 := byteAt buf 12
    bgc3 := byteAt buf 13 }

/-! ## Draw events

The decoder writes pixels only through draw_box_px (gap fill) and through
drawglyph, which renders one cell through the external font engines and
always returns cell_w.  Both sinks are recorded as events carrying the
arguments of the call.  The height of a gap fill box is kept as an Int:
the C source computes cell_h * (start_line - cur_y) in signed arithmetic
before handing it to the drawing primitive. -/

inductive DrawEvent where
  | box : Nat → Nat → Nat → Int → Nat → DrawEvent
  | glyph : Nat → Nat → TuiCell → DrawEvent
  deriving DecidableEq

/-- Decoder state: the walking byte position, the remaining-size counter
buf_sz that the source maintains (it is reduced for cell records but not
for line records, exactly as in the C), the four dirty rectangle output
fields (none models an out-parameter never written), the current line
cursor (-1 is the initial sentinel), the largest start_line seen, and the
trace of drawing calls. -/
structure RastSt where
  pos : Nat
  bufRem : Nat
  x1 : Option Nat
  y1 : Option Nat
  x2 : Option Nat
  y2 : Option Nat
  cur_y : Int
  last_line : Nat
  evs : List DrawEvent
  deriving DecidableEq

def initSt : RastSt :=
  { pos := 0, bufRem := 0, x1 := none, y1 := none, x2 := none, y2 := none,
    cur_y := -1, last_line := 0, evs := [] }

/-- One iteration of the cell loop of raster_tobuf, entered only when the
remaining size counter is at least raster_cell_sz.  Returns the new
horizontal cursor draw_x together with the new state.  The x1, y1 and y2
outputs are never touched here; only x2 can move, after a successful
blit. -/
def cellIter (cw ch mw mh alpha : Nat) (buf : List Nat) (dx dy : Nat)
    (st : RastSt) : Nat × RastSt :=
  let cell := unpack_cell buf st.pos alpha
  let st := { st with pos := st.pos + raster_cell_sz,
                      bufRem := st.bufRem - raster_cell_sz }
  if cell.attr &&& (1 <<< CATTR_SKIP) ≠ 0 then
    (dx + cw, st)
  else if dx + cw < mw ∧ dy + ch < mh then
    let st := { st with evs := st.evs ++ [DrawEvent.glyph dx dy cell] }
    let dx := dx + cw
    let next_x := dx + cw
    let st := if st.x2.getD 0 < next_x ∧ next_x ≤ mw then
        { st with x2 := some next_x } else st
    (dx, st)
  else
    (dx, st)

/-- The cell loop: while the line has cells left and the remaining size
counter holds a full cell record. -/
def cellLoop (cw ch mw mh alpha : Nat) (buf : List Nat) :
    Nat → Nat → Nat → RastSt → RastSt
  | 0, _, _, st => st
  | n + 1, dx, dy, st =>
    if st.bufRem < raster_cell_sz then st
    else
      cellLoop cw ch mw mh alpha buf n
        (cellIter cw ch mw mh alpha buf dx dy st).1 dy
        (cellIter cw ch mw mh alpha buf dx dy st).2

/-- Track the lowest line seen: if (line.start_line > last_line). -/
def stepLast (start_line : Nat) (st : RastSt) : RastSt :=
  if start_line > st.last_line then { st with last_line := start_line } else st

/-- First-line y1 seed in dirty mode: if (update and cur_y == -1). -/
def stepY1Dirty (update : Bool) (ch start_line : Nat) (st : RastSt) : RastSt :=
  if update ∧ st.cur_y = -1 then { st with y1 := some (start_line * ch) }
  else st

/-- Skipped-line handling: in full mode the skipped space is filled with a
box of width cell_w (as in the source) and height cell_h times the line
distance, then the line cursor jumps to start_line. -/
def stepGap (update : Bool) (cw ch bgc : Nat) (start_line : Nat)
    (st : RastSt) : RastSt :=
  if st.cur_y ≠ (start_line : Int) then
    { (if ¬ update ∧ st.cur_y ≠ -1 then
        { st with evs := st.evs ++
            [DrawEvent.box 0 (st.cur_y * (ch : Int)).toNat cw
              ((ch : Int) * ((start_line : Int) - st.cur_y)) bgc] }
      else st) with cur_y := (start_line : Int) }
  else st

/-- Dirty rectangle top update: if (draw_y < y1). -/
def stepY1Min (draw_y : Nat) (st : RastSt) : RastSt :=
  if draw_y < st.y1.getD 0 then { st with y1 := some draw_y } else st

/-- Dirty rectangle left update: if (draw_x < x1). -/
def stepX1Min (draw_x : Nat) (st : RastSt) : RastSt :=
  if draw_x < st.x1.getD 0 then { st with x1 := some draw_x } else st

/-- Body of the line loop of raster_tobuf, entered only once the remaining
size counter was checked against raster_line_sz: unpack the line record
(the pointer advances, the size counter deliberately does not, as in the
source), track last_line, set y1 on the first line in dirty mode, fill the
gap with background in full mode, update y1/x1 against the draw position,
run the cell loop, and step the line cursor. -/
def lineStep (cw ch mw mh : Nat) (update : Bool) (bgc alpha : Nat)
    (buf : List Nat) (st : RastSt) : RastSt :=
  let start_line := readU16 buf st.pos
  let offset := readU16 buf (st.pos + 2)
  let ncells := readU16 buf (st.pos + 4)
  let st := stepGap update cw ch bgc start_line
    (stepY1Dirty update ch start_line
      (stepLast start_line { st with pos := st.pos + raster_line_sz }))
  let draw_y := (st.cur_y * (ch : Int)).toNat
  let draw_x := offset * cw
  let st := cellLoop cw ch mw mh alpha buf ncells draw_x draw_y
    (stepX1Min draw_x (stepY1Min draw_y st))
  { st with cur_y := st.cur_y + 1 }

/-- The line loop of raster_tobuf: runs for hdr.lines iterations while the
remaining size counter is nonzero; a remaining size smaller than a line
record is the in-loop malformed-data error (-1). -/
def lineLoop (cw ch mw mh : Nat) (update : Bool) (bgc alpha : Nat)
    (buf : List Nat) : Nat → RastSt → Int × RastSt
  | 0, st => (1, st)
  | fuel + 1, st =>
    if st.bufRem = 0 then (1, st)
    else if st.bufRem < raster_line_sz then (-1, st)
    else lineLoop cw ch mw mh update bgc alpha buf fuel
      (lineStep cw ch mw mh update bgc alpha buf st)

/-- Translation of raster_tobuf.  Returns the C return code (1 for success,
-1 for a malformed buffer) together with the final state: dirty rectangle
outputs and the trace of drawing calls.  The destination pixel pointer and
pitch of the C signature are represented by the event trace; the context
cell dimensions are the cw/ch arguments.  The cursor_state byte the source
copies into the context only selects colors inside drawglyph, which the
event model records as a call with its cell argument. -/
def raster_tobuf (cw ch mw mh : Nat) (buf : List Nat) : Int × RastSt :=
  let buf_sz := buf.length
  if buf_sz = 0 ∨ buf_sz < raster_hdr_sz then (-1, initSt)
  else
    let hdr := hdrOf buf
    let hdr_ver_sz := hdr.lines * raster_line_sz + hdr.cells * raster_cell_sz +
      raster_hdr_sz
    if hdr.data_sz > buf_sz ∨ hdr.data_sz ≠ hdr_ver_sz then (-1, initSt)
    else
      let update := hdr.flags &&& RPACK_DFRAME ≠ 0
      let bgc := SHMIF_RGBA hdr.bgc0 hdr.bgc1 hdr.bgc2 hdr.bgc3
      let st0 : RastSt :=
        { initSt with
            pos := raster_hdr_sz
            bufRem := buf_sz - raster_hdr_sz
            x1 := some (if update then mw else 0)
            y1 := some (if update then mh else 0)
            x2 := some (if update then 0 else mw)
            y2 := some (if update then 0 else mh) }
      let r := lineLoop cw ch mw mh update bgc hdr.bgc3 buf hdr.lines st0
      if r.1 = -1 then (-1, r.2)
      else
        let st := if update then
            { r.2 with y2 := some ((r.2.last_line + 1) * ch) } else r.2
        (r.1, st)

/-- The header size invariant the decoder checks: the declared total size
equals lines times line size plus cells times cell size plus header
size. -/
def sizeConsistent (buf : List Nat) : Prop :=
  (hdrOf buf).data_sz =
    (hdrOf buf).lines * raster_line_sz + (hdrOf buf).cells * raster_cell_sz +
      raster_hdr_sz

instance (buf : List Nat) : Decidable (sizeConsistent buf) := by
  unfold sizeConsistent; infer_instance

/-- Whether one draw event writes the background color to pixel (px, py). -/
def coversBg (bg px py : Nat) : DrawEvent → Bool
  | DrawEvent.box x y w h c =>
    decide (c = bg) && decide (x ≤ px) && decide (px < x + w) &&
      decide (y ≤ py) && decide ((py : Int) < (y : Int) + h)
  | DrawEvent.glyph _ _ _ => false

/-- Whether the trace writes the background color to pixel (px, py). -/
def fillsBg (evs : List DrawEvent) (bg px py : Nat) : Bool :=
  evs.any (coversBg bg px py)

/-! ## Audio accumulation (libretro_audcb / libretro_audscb)

The accumulator state of the libretro frameserver: the allocated sample
count audbuf_nsamples (the malloc holds exactly audbuf_nsamples int16
slots, indices 0 .. audbuf_nsamples - 1), the write cursor audbuf_used in
samples, the memory seen as a total function over indices so that stores
beyond the allocation are still observable, and the trace of stored
indices. -/

structure AudioSt where
  audbuf_nsamples : Nat
  audbuf_used : Nat
  audbuf : Nat → Int
  writes : List Nat

/-- A single int16 store into the audio buffer, with the index recorded. -/
def audWrite (st : AudioSt) (i : Nat) (v : Int) : AudioSt :=
  { st with audbuf := fun j => if j = i then v else st.audbuf j,
            writes := st.writes ++ [i] }

/-- The memcpy of the batch callback: consecutive stores from a base
index. -/
def audMemcpy (st : AudioSt) (base : Nat) : List Int → AudioSt
  | [] => st
  | v :: vs => audMemcpy (audWrite st base v) (base + 1) vs

/-- Translation of libretro_audcb: copy nframes interleaved stereo frames
at the cursor, advance the cursor by nframes * 2 samples, then reduce it
modulo audbuf_nsamples + 1. -/
def libretro_audcb (st : AudioSt) (data : List Int) (nframes : Nat) : AudioSt :=
  let st := audMemcpy st st.audbuf_used (data.take (nframes * 2))
  let used := st.audbuf_used + nframes * 2
  { st with audbuf_used := used % (st.audbuf_nsamples + 1) }

/-- Translation of libretro_audscb: store the left and right samples at the
cursor with two post-increments, then reduce the cursor modulo
audbuf_nsamples + 1. -/
def libretro_audscb (st : AudioSt) (left right : Int) : AudioSt :=
  let st1 := audWrite st st.audbuf_used left
  let st1 := { st1 with audbuf_used := st1.audbuf_used + 1 }
  let st2 := audWrite st1 st1.audbuf_used right
  let st2 := { st2 with audbuf_used := st2.audbuf_used + 1 }
  { st2 with audbuf_used := st2.audbuf_used % (st2.audbuf_nsamples + 1) }

/-! ## Video publish path (libretro_vidcb) -/

/-- Observable actions of the video callback on the shared segment, in
program order: dimension update, resized flag raise, one pixel store. -/
inductive VidEv where
  | setDims : Nat → Nat → VidEv
  | setResized : VidEv
  | pixel : Nat → Nat → VidEv
  deriving DecidableEq

structure VidSt where
  skipframe : Bool
  w : Nat
  h : Nat
  resized : Bool
  deriving DecidableEq

/-- The XRGB555 to RGBA expansion of the video callback: each 5 bit channel
is shifted left by 3, the alpha byte is 0xff. -/
def rgb555_to_rgba (val : Nat) : Nat :=
  let r := ((val &&& 0x7c00) >>> 10) <<< 3
  let g := ((val &&& 0x3e0) >>> 5) <<< 3
  let b := (val &&& 0x1f) <<< 3
  (0xff <<< 24) ||| (b <<< 16) ||| (g <<< 8) ||| r

/-- Translation of libretro_vidcb.  A set skipframe drops the frame and
clears the flag.  Otherwise, when the incoming dimensions differ from the
segment, the segment dimensions are stored and the resized flag raised
before any pixel is converted and stored; the source walks the input with
a row stride of pitch / 2 sixteen bit values and the destination
linearly. -/
def libretro_vidcb (st : VidSt) (data : List Nat) (width height pitch : Nat) :
    VidSt × List VidEv :=
  if st.skipframe then ({ st with skipframe := false }, [])
  else
    let hd :=
      if width ≠ st.w ∨ height ≠ st.h then
        ({ st with w := width, h := height, resized := true },
          [VidEv.setDims width height, VidEv.setResized])
      else (st, ([] : List VidEv))
    let pix := (List.range height).flatMap fun y =>
      (List.range width).map fun x =>
        VidEv.pixel (y * width + x)
          (rgb555_to_rgba (data.getD (y * (pitch / 2) + x) 0))
    (hd.1, hd.2 ++ pix)

/-- Checks along the trace that every pixel store is preceded by an event
satisfying the marker predicate. -/
def markBeforePixels (isMark : VidEv → Bool) : List VidEv → Bool → Bool
  | [], _ => true
  | e :: r, seen =>
    match e with
    | VidEv.pixel _ _ => seen && markBeforePixels isMark r seen
    | _ => markBeforePixels isMark r (seen || isMark e)

/-! ## Input label translation (ioev_ctxtbl)

Labels are lists of characters.  The sscanf based parsing of the source is
modelled directly: a PLAYER prefix followed by a decimal number (an
optional minus sign and a maximal run of digits; the ISO C conversion also
accepts leading white space and a plus sign, forms no label in this
protocol uses), and the same for the BUTTON and AXIS subtype patterns.
A successful conversion stores the parsed value even when the surrounding
guard later fails, exactly as the C sscanf writes through the pointer. -/

def MAX_PORTS : Nat := 4

def MAX_BUTTONS : Nat := 12

/-- Input ids of the libretro API (libretro.h, an external collaborator of
the repository). -/
def RETRO_DEVICE_ID_JOYPAD_B : Int := 0

def RETRO_DEVICE_ID_JOYPAD_Y : Int := 1

def RETRO_DEVICE_ID_JOYPAD_SELECT : Int := 2

def RETRO_DEVICE_ID_JOYPAD_START : Int := 3

def RETRO_DEVICE_ID_JOYPAD_UP : Int := 4

def RETRO_DEVICE_ID_JOYPAD_DOWN : Int := 5

def RETRO_DEVICE_ID_JOYPAD_LEFT : Int := 6

def RETRO_DEVICE_ID_JOYPAD_RIGHT : Int := 7

def RETRO_DEVICE_ID_JOYPAD_A : Int := 8

def RETRO_DEVICE_ID_JOYPAD_X : Int := 9

def RETRO_DEVICE_ID_JOYPAD_L : Int := 10

def RETRO_DEVICE_ID_JOYPAD_R : Int := 11

/-- The remap table of the libretro frameserver, in source order. -/
def remaptbl : List Int :=
  [RETRO_DEVICE_ID_JOYPAD_A, RETRO_DEVICE_ID_JOYPAD_B,
   RETRO_DEVICE_ID_JOYPAD_X, RETRO_DEVICE_ID_JOYPAD_Y,
   RETRO_DEVICE_ID_JOYPAD_L, RETRO_DEVICE_ID_JOYPAD_R]

def playerChars : List Char := ['P', 'L', 'A', 'Y', 'E', 'R']

def buttonChars : List Char := ['B', 'U', 'T', 'T', 'O', 'N']

def axisChars : List Char := ['A', 'X', 'I', 'S']

def upChars : List Char := ['U', 'P']

def downChars : List Char := ['D', 'O', 'W', 'N']

def leftChars : List Char := ['L', 'E', 'F', 'T']

def rightChars : List Char := ['R', 'I', 'G', 'H', 'T']

def selectChars : List Char := ['S', 'E', 'L', 'E', 'C', 'T']

def startChars : List Char := ['S', 'T', 'A', 'R', 'T']

/-- Literal character match of a pattern at the head of the input, giving
the remainder. -/
def stripPrefChars : List Char → List Char → Option (List Char)
  | [], cs => some cs
  | _ :: _, [] => none
  | p :: ps, c :: cs => if c = p then stripPrefChars ps cs else none

/-- Value of a run of decimal digits. -/
def digitsVal (ds : List Char) : Nat :=
  ds.foldl (fun a c => a * 10 + (c.toNat - 48)) 0

/-- One unsigned decimal conversion: the maximal run of digits at the head,
failing when it is empty. -/
def parseUDec (cs : List Char) : Option (Nat × List Char) :=
  let ds := cs.takeWhile Char.isDigit
  if ds = [] then none
  else some (digitsVal ds, cs.dropWhile Char.isDigit)

/-- One signed decimal conversion as in the sscanf %d directive. -/
def parseDec (cs : List Char) : Option (Int × List Char) :=
  match cs with
  | [] => none
  | c :: cs2 =>
    if c = '-' then
      (parseUDec cs2).map fun p => (-(p.1 : Int), p.2)
    else
      (parseUDec (c :: cs2)).map fun p => ((p.1 : Int), p.2)

/-- The sscanf pattern of a literal word followed by %d: returns the
converted value when the literal matches and digits follow. -/
def scanWordInt (word cs : List Char) : Option Int :=
  match stripPrefChars word cs with
  | none => none
  | some rest => (parseDec rest).map fun p => p.1

/-- strchr: the remainder of the list after the first occurrence of the
character. -/
def strchrAfter : List Char → Char → Option (List Char)
  | [], _ => none
  | x :: rest, c => if x = c then some rest else strchrAfter rest c

/-- The joypad press matrix of the frameserver context, indexed by port
then button id. -/
def JoypadMatrix : Type := Nat → Nat → Bool

/-- The single assignment the translation performs:
joypad[port][button] = value. -/
def joypadSet (m : JoypadMatrix) (p b : Nat) (v : Bool) : JoypadMatrix :=
  fun p2 b2 => if p2 = p ∧ b2 = b then v else m p2 b2

/-- Tail of the else-if chain of ioev_ctxtbl: the six strcmp cases against
the direction and meta button names; a miss leaves the button value as it
was. -/
def chainStr (subtype : List Char) (button : Int) : Int :=
  if subtype = upChars then RETRO_DEVICE_ID_JOYPAD_UP
  else if subtype = downChars then RETRO_DEVICE_ID_JOYPAD_DOWN
  else if subtype = leftChars then RETRO_DEVICE_ID_JOYPAD_LEFT
  else if subtype = rightChars then RETRO_DEVICE_ID_JOYPAD_RIGHT
  else if subtype = selectChars then RETRO_DEVICE_ID_JOYPAD_SELECT
  else if subtype = startChars then RETRO_DEVICE_ID_JOYPAD_START
  else button

/-- The AXIS arm of the chain: a matching conversion with a value inside
1..2 ends the chain with an empty body (axes are recognized but have no
behavior); otherwise the string comparisons run. -/
def chainAxis (subtype : List Char) (button : Int) : Int :=
  match scanWordInt axisChars subtype with
  | some a => if 0 < a ∧ a ≤ 2 then button else chainStr subtype button
  | none => chainStr subtype button

/-- The BUTTON arm: a successful conversion stores the value into button
even when the range guard fails (the sscanf side effect); inside the guard
the value is remapped through remaptbl.  The guard bound is
MAX_BUTTONS - 6. -/
def buttonOf (subtype : List Char) : Int :=
  match scanWordInt buttonChars subtype with
  | some b =>
    if 0 < b ∧ b ≤ (MAX_BUTTONS : Int) - 6 then
      if b - 1 > 5 then -1 else remaptbl.getD (b - 1).toNat 0
    else chainAxis subtype b
  | none => chainAxis subtype (-1)

/-- Translation of ioev_ctxtbl: parse the PLAYER number, check the port
range 1 .. MAX_PORTS - 1, find the subtype after the first underscore, run
the button chain starting from -1, and store the value when the resulting
button id is nonnegative. -/
def ioev_ctxtbl (m : JoypadMatrix) (label : List Char) (value : Bool) :
    JoypadMatrix :=
  match scanWordInt playerChars label with
  | none => m
  | some ind =>
    if 0 < ind ∧ ind < (MAX_PORTS : Int) then
      match strchrAfter label '_' with
      | none => m
      | some subtype =>
        let button := buttonOf subtype
        if 0 ≤ button then joypadSet m (ind - 1).toNat button.toNat value
        else m
    else m

/-! ## Concrete inputs used by witnesses and counterexamples -/

/-- A well formed raster buffer: dirty-frame flag set, one line record with
start_line 5, offset 3, one cell, declared size 32 equal to the wire
content 14 + 6 + 12. -/
def cex3buf : List Nat :=
  [1, 1, 0, 1, 0, 32, 0, 0, 0, 0, 0, 0, 0, 0] ++ [5, 0, 3, 0, 1, 0] ++
  [255, 255, 255, 0, 0, 0, 0, 0, 65, 0, 0, 0]

/-- A buffer whose header is size consistent (2 lines, 0 cells,
data_sz 26 = 2 * 6 + 14) inside a larger 39 byte supply, whose first line
record claims 2 cells that the header does not declare. -/
def cex1buf : List Nat :=
  [0, 2, 0, 0, 0, 26, 0, 0, 0, 0, 0, 0, 0, 0] ++ [0, 0, 0, 0, 2, 0] ++
  [1, 0, 0, 0, 0, 0] ++ [0, 0, 0, 0, 0, 0, 0, 0, 0, 0, 0, 0, 0]

/-- A full-frame buffer with two empty declared lines at rows 0 and 2 and
background color bytes 1, 2, 3, 4; row 1 is the gap between them. -/
def cex4buf : List Nat :=
  [0, 2, 0, 0, 0, 26, 0, 0, 0, 0, 1, 2, 3, 4] ++ [0, 0, 0, 0, 0, 0] ++
  [2, 0, 0, 0, 0, 0]

/-- The packed background color of cex4buf. -/
def bgc4val : Nat := SHMIF_RGBA 1 2 3 4

/-- An all-released joypad matrix. -/
def exMatrix : JoypadMatrix := fun _ _ => false

/-- Audio accumulator sized to 6 allocated samples, the malloc pattern fill
of the source on the allocated slots. -/
def audDemo0 : AudioSt :=
  { audbuf_nsamples := 6, audbuf_used := 0,
    audbuf := fun i => if i < 6 then 0xaded else 0, writes := [] }

/-- State after one batch push of 3 stereo frames. -/
def audDemo1 : AudioSt := libretro_audcb audDemo0 [1, 2, 3, 4, 5, 6] 3

/-- State after one further single frame push. -/
def audDemo2 : AudioSt := libretro_audscb audDemo1 7 8

/-- A video segment state of dimensions 1 x 1 with no pending skip. -/
def vidDemoSt : VidSt := { skipframe := false, w := 1, h := 1, resized := false }

/-- A single cell record whose attribute byte has the SKIP bit set. -/
def skipDemoBuf : List Nat := [0, 0, 0, 0, 0, 0, 32, 0, 0, 0, 0, 0]

/-- A single cell record with a clear attribute byte. -/
def plainDemoBuf : List Nat := [9, 9, 9, 0, 0, 0, 0, 0, 65, 0, 0, 0]

/-- A decoder state holding exactly one cell record of remaining input. -/
def cellDemoSt : RastSt := { initSt with bufRem := 12 }

/-- Marker predicate for the resized flag raise. -/
def isResizedEv : VidEv → Bool
  | VidEv.setResized => true
  | _ => false

/-- Marker predicate for the dimension update. -/
def isSetDimsEv : VidEv → Bool
  | VidEv.setDims _ _ => true
  | _ => false

/-- The label PLAYER1_BUTTON1. -/
def lblP1B1 : List Char := playerChars ++ '1' :: '_' :: (buttonChars ++ ['1'])

/-- The label PLAYER2_UP. -/
def lblP2UP : List Char := playerChars ++ '2' :: '_' :: upChars

/-- The unrecognized label PLAYER1_FROB. -/
def lblP1FROB : List Char := playerChars ++ '1' :: '_' :: ['F', 'R', 'O', 'B']

/-- The label PLAYER1_BUTTON7, whose button number lies outside 1..6. -/
def lblP1B7 : List Char := playerChars ++ '1' :: '_' :: (buttonChars ++ ['7'])

/-! ## Size-gate lemmas for the decoder

The remaining-size counter starts at a multiple of 6 whenever the supplied
buffer is exactly data_sz bytes of a size consistent header, and every
mutation preserves that residue, so the in-loop malformed-size exit can
never fire on such a buffer. -/

theorem cellIter_bufRem (cw ch mw mh a : Nat) (buf : List Nat) (dx dy : Nat)
    (st : RastSt) :
    ((cellIter cw ch mw mh a buf dx dy st).2).bufRem =
      st.bufRem - raster_cell_sz := by
  unfold cellIter
  dsimp only
  split_ifs <;> rfl

theorem cellLoop_bufRem (cw ch mw mh a : Nat) (buf : List Nat) :
    ∀ n dx dy st, st.bufRem % 6 = 0 →
      (cellLoop cw ch mw mh a buf n dx dy st).bufRem % 6 = 0
  | 0, _, _, _, h => h
  | n + 1, dx, dy, st, h => by
    unfold cellLoop
    split_ifs with hlt
    · exact h
    · refine cellLoop_bufRem cw ch mw mh a buf n _ dy _ ?_
      rw [cellIter_bufRem]
      unfold raster_cell_sz at hlt ⊢
      omega

theorem stepLast_bufRem (s : Nat) (st : RastSt) :
    (stepLast s st).bufRem = st.bufRem := by
  unfold stepLast; split_ifs <;> rfl

theorem stepY1Dirty_bufRem (u : Bool) (ch s : Nat) (st : RastSt) :
    (stepY1Dirty u ch s st).bufRem = st.bufRem := by
  unfold stepY1Dirty; split_ifs <;> rfl

theorem stepGap_bufRem (u : Bool) (cw ch bg s : Nat) (st : RastSt) :
    (stepGap u cw ch bg s st).bufRem = st.bufRem := by
  unfold stepGap; split_ifs <;> rfl

theorem stepY1Min_bufRem (dy : Nat) (st : RastSt) :
    (stepY1Min dy st).bufRem = st.bufRem := by
  unfold stepY1Min; split_ifs <;> rfl

theorem stepX1Min_bufRem (dx : Nat) (st : RastSt) :
    (stepX1Min dx st).bufRem = st.bufRem := by
  unfold stepX1Min; split_ifs <;> rfl

theorem lineStep_bufRem (cw ch mw mh : Nat) (u : Bool) (bg a : Nat)
    (buf : List Nat) (st : RastSt) (h : st.bufRem % 6 = 0) :
    (lineStep cw ch mw mh u bg a buf st).bufRem % 6 = 0 := by
  unfold lineStep
  dsimp only
  refine cellLoop_bufRem cw ch mw mh a buf _ _ _ _ ?_
  rw [stepX1Min_bufRem, stepY1Min_bufRem, stepGap_bufRem, stepY1Dirty_bufRem,
    stepLast_bufRem]
  exact h

theorem lineLoop_ok (cw ch mw mh : Nat) (u : Bool) (bg a : Nat)
    (buf : List Nat) :
    ∀ fuel st, st.bufRem % 6 = 0 →
      (lineLoop cw ch mw mh u bg a buf fuel st).1 = 1
  | 0, _, _ => rfl
  | fuel + 1, st, h => by
    unfold lineLoop
    split_ifs with h0 h6
    · rfl
    · exfalso
      unfold raster_line_sz at h6
      omega
    · exact lineLoop_ok cw ch mw mh u bg a buf fuel _
        (lineStep_bufRem cw ch mw mh u bg a buf st h)

theorem raster_reject_clean (cw ch mw mh : Nat) (buf : List Nat)
    (hns : ¬ sizeConsistent buf) :
    raster_tobuf cw ch mw mh buf = (-1, initSt) := by
  unfold raster_tobuf
  dsimp only
  split_ifs with h1 h2 <;> first
    | rfl
    | (exfalso
       apply hns
       unfold sizeConsistent
       push_neg at h2
       exact h2.2)

theorem raster_accept_size (cw ch mw mh : Nat) (buf : List Nat)
    (h : (raster_tobuf cw ch mw mh buf).1 = 1) :
    sizeConsistent buf ∧ (hdrOf buf).data_sz ≤ buf.length := by
  by_cases hns : sizeConsistent buf
  · refine ⟨hns, ?_⟩
    by_contra hlen
    revert h
    unfold raster_tobuf
    dsimp only
    split_ifs with h1 h2 <;>
      first
        | (intro h; exact absurd h (by decide))
        | (exfalso; push_neg at h2; exact hlen h2.1)
  · rw [raster_reject_clean cw ch mw mh buf hns] at h
    exact absurd h (by decide)

theorem raster_exact_accept (cw ch mw mh : Nat) (buf : List Nat)
    (hc : sizeConsistent buf) (hl : buf.length = (hdrOf buf).data_sz) :
    (raster_tobuf cw ch mw mh buf).1 = 1 := by
  have e1 : raster_line_sz = 6 := rfl
  have e2 : raster_cell_sz = 12 := rfl
  have e3 : raster_hdr_sz = 14 := rfl
  unfold sizeConsistent at hc
  rw [e1, e2, e3] at hc
  have hmod : (buf.length - raster_hdr_sz) % 6 = 0 := by rw [e3]; omega
  unfold raster_tobuf
  dsimp only
  split_ifs with h1 h2 h3 h4 h5
  · exfalso
    rw [e3] at h1
    rcases h1 with h1 | h1 <;> omega
  · exfalso
    rw [e1, e2, e3] at h2
    rcases h2 with h2 | h2 <;> omega
  · exfalso
    rw [lineLoop_ok cw ch mw mh _ _ _ buf (hdrOf buf).lines _ hmod] at h4
    exact absurd h4 (by decide)
  · exact lineLoop_ok cw ch mw mh _ _ _ buf (hdrOf buf).lines _ hmod
  · exfalso
    rw [lineLoop_ok cw ch mw mh _ _ _ buf (hdrOf buf).lines _ hmod] at h5
    exact absurd h5 (by decide)
  · exact lineLoop_ok cw ch mw mh _ _ _ buf (hdrOf buf).lines _ hmod

/-! ## C1 -/

/-- C1 (amended).  The decoder rejects, with no write to the destination
or to the dirty rectangle out-parameters, every buffer whose declared
data_sz differs from lines * line_sz + cells * cell_sz + hdr_sz; an
accepted buffer always satisfies that equation with data_sz within the
supplied length; and for a supplied buffer of exactly data_sz bytes the
size equation is also sufficient for acceptance.  (Sufficiency fails for
some strictly larger supplied buffers, see the counterexample.) -/
theorem C1_size_gate (cw ch mw mh : Nat) (buf : List Nat) :
    ((raster_tobuf cw ch mw mh buf).1 = 1 →
      sizeConsistent buf ∧ (hdrOf buf).data_sz ≤ buf.length) ∧
    (¬ sizeConsistent buf → raster_tobuf cw ch mw mh buf = (-1, initSt)) ∧
    (sizeConsistent buf → buf.length = (hdrOf buf).data_sz →
      (raster_tobuf cw ch mw mh buf).1 = 1) :=
  ⟨raster_accept_size cw ch mw mh buf,
   raster_reject_clean cw ch mw mh buf,
   raster_exact_accept cw ch mw mh buf⟩

/-- Witness for C1: a size consistent buffer of exactly its declared size
is accepted. -/
theorem C1_size_gate_witness :
    sizeConsistent cex3buf ∧ cex3buf.length = (hdrOf cex3buf).data_sz ∧
      (raster_tobuf 4 6 64 64 cex3buf).1 = 1 :=
  ⟨by decide, by decide,
   (C1_size_gate 4 6 64 64 cex3buf).2.2 (by decide) (by decide)⟩

/-- Counterexample for C1 as stated: this buffer satisfies the declared
size equation and is at least data_sz bytes long, yet the decoder returns
the format error: the first line record claims more cells than the header
declares, the remaining size counter is driven below a line record, and
the in-loop check fires. -/
theorem C1_cex :
    sizeConsistent cex1buf ∧ (hdrOf cex1buf).data_sz ≤ cex1buf.length ∧
      (raster_tobuf 4 6 64 64 cex1buf).1 ≠ 1 := by
  decide

/-! ## C3 -/

/-- C3 (amended).  For a dirty-frame buffer declaring exactly one cell at
row 5, column 3, the decoder returns x1 = 3 * cell_w, y1 = 5 * cell_h and
y2 = 6 * cell_h as claimed, but x2 = 5 * cell_w: the source computes the
right edge as next_x = draw_x + cell_w after draw_x was already advanced
past the blitted cell, so the reported rectangle extends one cell width
past the drawn cell (when that still fits the destination width). -/
theorem C3_dirty_rect (cw ch mw mh : Nat) (hcw : 0 < cw) (hx : 5 * cw ≤ mw)
    (hy : 6 * ch < mh) :
    (raster_tobuf cw ch mw mh cex3buf).1 = 1 ∧
    (raster_tobuf cw ch mw mh cex3buf).2.x1 = some (3 * cw) ∧
    (raster_tobuf cw ch mw mh cex3buf).2.y1 = some (5 * ch) ∧
    (raster_tobuf cw ch mw mh cex3buf).2.x2 = some (5 * cw) ∧
    (raster_tobuf cw ch mw mh cex3buf).2.y2 = some (6 * ch) := by
  have h3 : 3 * cw < mw := by omega
  have h4 : 3 * cw + cw < mw := by omega
  have h6 : 5 * ch + ch < mh := by omega
  have h5 : 3 * cw + cw + cw ≤ mw := by omega
  have h0 : 0 < 3 * cw + cw + cw := by omega
  have htn : ((5 : Int) * (ch : Int)).toNat = 5 * ch := by omega
  have hxx : 3 * cw + cw + cw = 5 * cw := by omega
  simp [raster_tobuf, lineLoop, lineStep, cellLoop, cellIter, stepLast,
    stepY1Dirty, stepGap, stepY1Min, stepX1Min, unpack_cell, hdrOf, readU16,
    readU32, byteAt, cex3buf, initSt, raster_hdr_sz, raster_line_sz,
    raster_cell_sz, RPACK_DFRAME, CATTR_SKIP, SHMIF_RGBA, h3, h4, h5, h6, h0,
    htn, hxx, hcw, hx, hy]

/-- Witness for C3 at cell geometry 4 x 6 in a 64 x 64 destination. -/
theorem C3_dirty_rect_witness :
    ((0 : Nat) < 4 ∧ 5 * 4 ≤ 64 ∧ 6 * 6 < 64) ∧
    (raster_tobuf 4 6 64 64 cex3buf).2.x2 = some (5 * 4) :=
  ⟨⟨by decide, by decide, by decide⟩,
   (C3_dirty_rect 4 6 64 64 (by decide) (by decide) (by decide)).2.2.2.1⟩

/-- Counterexample for C3 as stated: with cell_w = 4 the claim demands
x2 = 4 * cell_w = 16, but the decoder reports 20. -/
theorem C3_cex :
    (raster_tobuf 4 6 64 64 cex3buf).1 = 1 ∧
    (raster_tobuf 4 6 64 64 cex3buf).2.x1 = some (3 * 4) ∧
    (raster_tobuf 4 6 64 64 cex3buf).2.y1 = some (5 * 6) ∧
    (raster_tobuf 4 6 64 64 cex3buf).2.y2 = some (6 * 6) ∧
    (raster_tobuf 4 6 64 64 cex3buf).2.x2 ≠ some (4 * 4) := by
  decide

/-! ## C4 -/

/-- C4 (amended).  In full-frame mode the returned rectangle is the whole
frame (0, 0, max_w, max_h), and the rows between two consecutive declared
lines are filled with the header background only in a strip one cell wide:
the fill box the source emits for the skipped rows has width cell_w, not
max_w.  For the buffer declaring empty lines at rows 0 and 2 the single
fill event is the box at (0, cell_h) of width cell_w and height cell_h. -/
theorem C4_fullframe (cw ch mw mh : Nat) :
    (raster_tobuf cw ch mw mh cex4buf).1 = 1 ∧
    (raster_tobuf cw ch mw mh cex4buf).2.evs =
      [DrawEvent.box 0 ch cw (ch : Int) bgc4val] ∧
    (raster_tobuf cw ch mw mh cex4buf).2.x1 = some 0 ∧
    (raster_tobuf cw ch mw mh cex4buf).2.y1 = some 0 ∧
    (raster_tobuf cw ch mw mh cex4buf).2.x2 = some mw ∧
    (raster_tobuf cw ch mw mh cex4buf).2.y2 = some mh := by
  have htn : ((1 : Int) * (ch : Int)).toNat = ch := by omega
  simp [raster_tobuf, lineLoop, lineStep, cellLoop, cellIter, stepLast,
    stepY1Dirty, stepGap, stepY1Min, stepX1Min, unpack_cell, hdrOf, readU16,
    readU32, byteAt, cex4buf, bgc4val, initSt, raster_hdr_sz, raster_line_sz,
    raster_cell_sz, RPACK_DFRAME, CATTR_SKIP, SHMIF_RGBA, htn]

/-- Counterexample for C4 as stated: with cell_w = 8 and max_w = 32 the gap
row 1 (pixels of height 6 starting at y = 6) is background filled at
x = 7 but not at x = 8, although 8 < max_w: the row is not filled
across. -/
theorem C4_cex :
    (raster_tobuf 8 6 32 32 cex4buf).1 = 1 ∧
    (8 : Nat) < 32 ∧
    fillsBg (raster_tobuf 8 6 32 32 cex4buf).2.evs bgc4val 7 6 = true ∧
    fillsBg (raster_tobuf 8 6 32 32 cex4buf).2.evs bgc4val 8 6 = false := by
  decide

/-! ## C6 -/

/-- C6: a cell whose attribute byte carries the SKIP bit advances the
horizontal cursor by exactly one cell width and leaves the state unchanged
except for consuming the record: no draw event is emitted and no dirty
rectangle field moves. -/
theorem C6_skip_advance (cw ch mw mh a : Nat) (buf : List Nat)
    (dx dy : Nat) (st : RastSt)
    (h : (unpack_cell buf st.pos a).attr &&& (1 <<< CATTR_SKIP) ≠ 0) :
    cellIter cw ch mw mh a buf dx dy st =
      (dx + cw, { st with pos := st.pos + raster_cell_sz,
                          bufRem := st.bufRem - raster_cell_sz }) := by
  unfold cellIter
  dsimp only
  rw [if_pos h]

/-- Witness for C6 on a concrete SKIP cell. -/
theorem C6_skip_advance_witness :
    ((unpack_cell skipDemoBuf cellDemoSt.pos 0).attr &&& (1 <<< CATTR_SKIP) ≠ 0) ∧
    cellIter 4 6 64 64 0 skipDemoBuf 10 20 cellDemoSt =
      (10 + 4, { cellDemoSt with pos := cellDemoSt.pos + raster_cell_sz,
                                 bufRem := cellDemoSt.bufRem - raster_cell_sz }) :=
  ⟨by decide, C6_skip_advance 4 6 64 64 0 skipDemoBuf 10 20 cellDemoSt (by decide)⟩

/-! ## C5 -/

/-- C5: a cell whose horizontal or vertical extent exceeds the destination
dimensions is discarded: the record is consumed, no draw event is emitted,
none of the dirty rectangle fields move, and (when the SKIP bit is not the
reason for the skip) the horizontal cursor does not advance. -/
theorem C5_oob_discard (cw ch mw mh a : Nat) (buf : List Nat)
    (dx dy : Nat) (st : RastSt)
    (hoob : mw < dx + cw ∨ mh < dy + ch) :
    (cellIter cw ch mw mh a buf dx dy st).2 =
      { st with pos := st.pos + raster_cell_sz,
                bufRem := st.bufRem - raster_cell_sz } ∧
    ((unpack_cell buf st.pos a).attr &&& (1 <<< CATTR_SKIP) = 0 →
      (cellIter cw ch mw mh a buf dx dy st).1 = dx) := by
  unfold cellIter
  dsimp only
  by_cases hskip : (unpack_cell buf st.pos a).attr &&& (1 <<< CATTR_SKIP) ≠ 0
  · rw [if_pos hskip]
    exact ⟨rfl, fun h => absurd h hskip⟩
  · rw [if_neg hskip, if_neg (by omega : ¬ (dx + cw < mw ∧ dy + ch < mh))]
    exact ⟨rfl, fun _ => rfl⟩

/-- Witness for C5 on a concrete out-of-bounds cell. -/
theorem C5_oob_discard_witness :
    ((64 : Nat) < 62 + 4 ∨ (64 : Nat) < 20 + 6) ∧
    (cellIter 4 6 64 64 0 plainDemoBuf 62 20 cellDemoSt).2 =
      { cellDemoSt with pos := cellDemoSt.pos + raster_cell_sz,
                        bufRem := cellDemoSt.bufRem - raster_cell_sz } ∧
    ((unpack_cell plainDemoBuf cellDemoSt.pos 0).attr &&& (1 <<< CATTR_SKIP) = 0 →
      (cellIter 4 6 64 64 0 plainDemoBuf 62 20 cellDemoSt).1 = 62) :=
  ⟨by decide, C5_oob_discard 4 6 64 64 0 plainDemoBuf 62 20 cellDemoSt (by decide)⟩

/-! ## C2 -/

/-- C2 (code bug).  With an allocation of 6 samples, a batch push of three
stereo frames leaves the cursor at 6 (the modulo is nsamples + 1, so the
cursor equals the allocation size, already past capacity minus one guard
sample), and the following single frame push stores to indices 6 and 7,
both outside the 6 slot malloc region, before wrapping the cursor to 1.
Sample 0 keeps its first written value. -/
theorem C2_guard_overflow :
    audDemo0.audbuf_nsamples = 6 ∧
    audDemo1.audbuf_used = 6 ∧
    audDemo2.writes = [0, 1, 2, 3, 4, 5, 6, 7] ∧
    audDemo2.audbuf 6 = 7 ∧
    audDemo2.audbuf 7 = 8 ∧
    audDemo2.audbuf 0 = 1 ∧
    audDemo2.audbuf_used = 1 := by
  refine ⟨rfl, by decide, by decide, by decide, by decide, by decide, by decide⟩

/-! ## C7 -/

theorem markBeforePixels_of_seen (f : VidEv → Bool) :
    ∀ l, markBeforePixels f l true = true
  | [] => rfl
  | e :: r => by
    cases e <;> simp [markBeforePixels, markBeforePixels_of_seen f r]

/-- C7: whenever the published frame dimensions differ from the segment,
every pixel store in the callback trace is preceded by the resized flag
raise and by the dimension update, and (when the frame is not dropped by
the skip flag) the segment dimensions and resized flag are updated. -/
theorem C7_resize_order (st : VidSt) (data : List Nat)
    (width height pitch : Nat) (hdim : width ≠ st.w ∨ height ≠ st.h) :
    markBeforePixels isResizedEv
      (libretro_vidcb st data width height pitch).2 false = true ∧
    markBeforePixels isSetDimsEv
      (libretro_vidcb st data width height pitch).2 false = true ∧
    (st.skipframe = false →
      (libretro_vidcb st data width height pitch).1.w = width ∧
      (libretro_vidcb st data width height pitch).1.h = height ∧
      (libretro_vidcb st data width height pitch).1.resized = true) := by
  unfold libretro_vidcb
  dsimp only
  by_cases hsk : st.skipframe = true
  · rw [if_pos hsk]
    exact ⟨rfl, rfl, fun h => by rw [h] at hsk; exact absurd hsk (by decide)⟩
  · rw [if_neg hsk, if_pos hdim]
    refine ⟨?_, ?_, fun _ => ⟨rfl, rfl, rfl⟩⟩ <;>
      simp [markBeforePixels, isResizedEv, isSetDimsEv, markBeforePixels_of_seen]

/-! ## Parsing lemmas for the label translation -/

theorem stripPrefChars_append : ∀ p cs : List Char,
    stripPrefChars p (p ++ cs) = some cs
  | [], _ => rfl
  | p :: ps, cs => by
    simp [stripPrefChars, stripPrefChars_append ps cs]

theorem span_digits : ∀ ds r : List Char, (∀ c ∈ ds, c.isDigit = true) →
    (∀ c, r.head? = some c → c.isDigit = false) →
    (ds ++ r).takeWhile Char.isDigit = ds ∧
      (ds ++ r).dropWhile Char.isDigit = r
  | [], r, _, hr => by
    cases r with
    | nil => exact ⟨rfl, rfl⟩
    | cons c rs =>
      simp [List.takeWhile, List.dropWhile, hr c rfl]
  | d :: ds, r, hds, hr => by
    have hd : d.isDigit = true := hds d (by simp)
    have ih := span_digits ds r (fun c hc => hds c (by simp [hc])) hr
    simp [List.takeWhile, List.dropWhile, hd, ih.1, ih.2]

theorem parseUDec_digits (ds r : List Char) (hne : ds ≠ [])
    (hds : ∀ c ∈ ds, c.isDigit = true)
    (hr : ∀ c, r.head? = some c → c.isDigit = false) :
    parseUDec (ds ++ r) = some (digitsVal ds, r) := by
  have hsp := span_digits ds r hds hr
  unfold parseUDec
  simp [hsp.1, hsp.2, hne]

theorem parseDec_digits (ds r : List Char) (hne : ds ≠ [])
    (hds : ∀ c ∈ ds, c.isDigit = true)
    (hr : ∀ c, r.head? = some c → c.isDigit = false) :
    parseDec (ds ++ r) = some ((digitsVal ds : Int), r) := by
  cases ds with
  | nil => exact absurd rfl hne
  | cons d ds2 =>
    have hd : d.isDigit = true := hds d (by simp)
    have hdm : ¬ d = '-' := by
      intro h
      rw [h] at hd
      exact absurd hd (by decide)
    have := parseUDec_digits (d :: ds2) r hne hds hr
    simp only [List.cons_append, parseDec, if_neg hdm]
    rw [List.cons_append] at this
    rw [this]
    rfl

theorem parseDec_neg_digits (ds r : List Char) (hne : ds ≠ [])
    (hds : ∀ c ∈ ds, c.isDigit = true)
    (hr : ∀ c, r.head? = some c → c.isDigit = false) :
    parseDec ('-' :: (ds ++ r)) = some (-(digitsVal ds : Int), r) := by
  have := parseUDec_digits ds r hne hds hr
  simp [parseDec, this]

theorem strchrAfter_append : ∀ p : List Char, ∀ r : List Char, ∀ c : Char,
    (∀ x ∈ p, x ≠ c) → strchrAfter (p ++ c :: r) c = some r
  | [], r, c, _ => by simp [strchrAfter]
  | x :: p, r, c, hp => by
    have hx : x ≠ c := hp x (by simp)
    simp [strchrAfter, hx, strchrAfter_append p r c (fun y hy => hp y (by simp [hy]))]

theorem scanWordInt_pref (word rest : List Char) :
    scanWordInt word (word ++ rest) = (parseDec rest).map fun p => p.1 := by
  unfold scanWordInt
  rw [stripPrefChars_append]

/-- Witness for C7 at a concrete resize publish. -/
theorem C7_resize_order_witness :
    ((2 : Nat) ≠ vidDemoSt.w ∨ (1 : Nat) ≠ vidDemoSt.h) ∧
    markBeforePixels isResizedEv
      (libretro_vidcb vidDemoSt [0x7fff, 3] 2 1 4).2 false = true ∧
    (libretro_vidcb vidDemoSt [0x7fff, 3] 2 1 4).1.resized = true :=
  ⟨by decide,
   (C7_resize_order vidDemoSt [0x7fff, 3] 2 1 4 (by decide)).1,
   ((C7_resize_order vidDemoSt [0x7fff, 3] 2 1 4 (by decide)).2.2 (by decide)).2.2⟩

/-! ## C8 -/

/-- C8: the label PLAYER1_BUTTON1 sets the binding given by the first
remap table entry on port 0, the label PLAYER2_UP sets the UP binding on
port 1, and the unrecognized label PLAYER1_FROB leaves the matrix
unchanged with no error. -/
theorem C8_label_scenarios (m : JoypadMatrix) (v : Bool) :
    ioev_ctxtbl m lblP1B1 v = joypadSet m 0 (remaptbl.getD 0 0).toNat v ∧
    ioev_ctxtbl m lblP2UP v = joypadSet m 1 RETRO_DEVICE_ID_JOYPAD_UP.toNat v ∧
    ioev_ctxtbl m lblP1FROB v = m :=
  ⟨rfl, rfl, rfl⟩

/-! ## C9 -/

/-- C9: a PLAYERn label whose number is 0 or at least 4 (or is negative)
leaves the matrix unchanged, and no label whatsoever can modify port index
3: the guard ind < MAX_PORTS = 4 together with the store at ind - 1 keeps
the fourth row of the matrix unreachable. -/
theorem C9_port_range (m : JoypadMatrix) (v : Bool) :
    (∀ ds rest, ds ≠ [] → (∀ c ∈ ds, c.isDigit = true) →
      (digitsVal ds = 0 ∨ 4 ≤ digitsVal ds) →
      ioev_ctxtbl m (playerChars ++ ds ++ '_' :: rest) v = m) ∧
    (∀ ds rest, ds ≠ [] → (∀ c ∈ ds, c.isDigit = true) →
      ioev_ctxtbl m (playerChars ++ '-' :: ds ++ '_' :: rest) v = m) ∧
    (∀ label b, ioev_ctxtbl m label v 3 b = m 3 b) := by
  have hmp : MAX_PORTS = 4 := rfl
  refine ⟨?_, ?_, ?_⟩
  · intro ds rest hne hds hval
    have hp := parseDec_digits ds ('_' :: rest) hne hds
      (fun c hc => by simp at hc; subst hc; decide)
    unfold ioev_ctxtbl
    rw [List.append_assoc]
    rw [scanWordInt_pref playerChars (ds ++ '_' :: rest), hp]
    dsimp only [Option.map]
    rw [if_neg (by simp only [hmp]; omega)]
  · intro ds rest hne hds
    have hp := parseDec_neg_digits ds ('_' :: rest) hne hds
      (fun c hc => by simp at hc; subst hc; decide)
    unfold ioev_ctxtbl
    rw [List.append_assoc]
    simp only [List.cons_append]
    rw [scanWordInt_pref playerChars ('-' :: (ds ++ '_' :: rest)), hp]
    dsimp only [Option.map]
    rw [if_neg (by simp only [hmp]; omega)]
  · intro label b
    unfold ioev_ctxtbl
    cases hp : scanWordInt playerChars label with
    | none => rfl
    | some ind =>
      dsimp only
      split_ifs with hind
      · cases hs : strchrAfter label '_' with
        | none => rfl
        | some subtype =>
          dsimp only
          split_ifs with hbtn
          · unfold joypadSet
            rw [if_neg]
            rintro ⟨h3, _⟩
            simp only [hmp] at hind
            omega
          · rfl
      · rfl

/-- Witness for C9 on the label PLAYER4_UP. -/
theorem C9_port_range_witness :
    ((['4'] : List Char) ≠ [] ∧ (∀ c ∈ (['4'] : List Char), c.isDigit = true) ∧
      (digitsVal ['4'] = 0 ∨ 4 ≤ digitsVal ['4'])) ∧
    ioev_ctxtbl exMatrix (playerChars ++ ['4'] ++ '_' :: upChars) true =
      exMatrix :=
  ⟨⟨by decide, by decide, by decide⟩,
   (C9_port_range exMatrix true).1 ['4'] upChars (by decide) (by decide)
     (by decide)⟩

/-! ## C10 -/

theorem chainAxis_button (mds : List Char) (b : Int) :
    chainAxis (buttonChars ++ mds) b = b := by
  simp [chainAxis, chainStr, scanWordInt, stripPrefChars, buttonChars,
    axisChars, upChars, downChars, leftChars, rightChars, selectChars,
    startChars]

/-- C10 (amended).  For a valid port number n in 1..3, a label
PLAYERn_BUTTONm with m in 1..6 sets the binding remaptbl[m - 1] (the order
A, B, X, Y, L, R) on port n - 1; but for m = 0 or m between 7 and 11 the
matrix still changes: the sscanf conversion stores m into the button
variable even though the range guard fails, no other pattern matches, and
the trailing store uses the raw value, setting joypad[n - 1][m]. -/
theorem C10_button_map (m : JoypadMatrix) (v : Bool) (nds mds : List Char)
    (hn1 : nds ≠ []) (hn2 : ∀ c ∈ nds, c.isDigit = true)
    (hnlo : 1 ≤ digitsVal nds) (hnhi : digitsVal nds ≤ 3)
    (hm1 : mds ≠ []) (hm2 : ∀ c ∈ mds, c.isDigit = true)
    (hmhi : digitsVal mds ≤ 11) :
    ioev_ctxtbl m (playerChars ++ nds ++ '_' :: (buttonChars ++ mds)) v =
      joypadSet m (digitsVal nds - 1)
        (if 1 ≤ digitsVal mds ∧ digitsVal mds ≤ 6 then
           (remaptbl.getD (digitsVal mds - 1) 0).toNat
         else digitsVal mds) v := by
  have hmp : MAX_PORTS = 4 := rfl
  have hmb : MAX_BUTTONS = 12 := rfl
  have hpd := parseDec_digits nds ('_' :: (buttonChars ++ mds)) hn1 hn2
    (fun c hc => by simp at hc; subst hc; decide)
  have hmd := parseDec_digits mds [] hm1 hm2 (fun c hc => by simp at hc)
  rw [List.append_nil] at hmd
  have htn : ((digitsVal nds : Int) - 1).toNat = digitsVal nds - 1 := by omega
  unfold ioev_ctxtbl
  rw [List.append_assoc]
  rw [scanWordInt_pref playerChars (nds ++ '_' :: (buttonChars ++ mds)), hpd]
  dsimp only [Option.map]
  rw [if_pos (by simp only [hmp]; omega :
    0 < (digitsVal nds : Int) ∧ (digitsVal nds : Int) < (MAX_PORTS : Int))]
  have hchr : strchrAfter (playerChars ++ (nds ++ '_' :: (buttonChars ++ mds)))
      '_' = some (buttonChars ++ mds) := by
    rw [← List.append_assoc]
    refine strchrAfter_append (playerChars ++ nds) _ '_' ?_
    intro x hx
    rcases List.mem_append.mp hx with h | h
    · revert h
      have hpc : ∀ y ∈ playerChars, y ≠ '_' := by decide
      exact hpc x
    · intro heq
      have hdig := hn2 x h
      rw [heq] at hdig
      exact absurd hdig (by decide)
  rw [hchr]
  dsimp only
  unfold buttonOf
  rw [scanWordInt_pref buttonChars mds, hmd]
  dsimp only [Option.map]
  by_cases hin : 1 ≤ digitsVal mds ∧ digitsVal mds ≤ 6
  · rw [if_pos hin,
      if_pos (by simp only [hmb]; omega :
        0 < (digitsVal mds : Int) ∧
          (digitsVal mds : Int) ≤ (MAX_BUTTONS : Int) - 6),
      if_neg (by omega : ¬ ((digitsVal mds : Int) - 1 > 5))]
    obtain ⟨hlo, hhi⟩ := hin
    set mm := digitsVal mds with hmm
    interval_cases mm <;> (rw [if_pos (by decide)]; rw [htn]; rfl)
  · rw [if_neg hin,
      if_neg (by simp only [hmb]; omega :
        ¬ (0 < (digitsVal mds : Int) ∧
            (digitsVal mds : Int) ≤ (MAX_BUTTONS : Int) - 6))]
    rw [chainAxis_button]
    rw [if_pos (by omega : (0 : Int) ≤ ((digitsVal mds : Nat) : Int))]
    rw [htn]
    have h2 : ((digitsVal mds : Nat) : Int).toNat = digitsVal mds := by omega
    rw [h2]

/-- Witness for C10: PLAYER2_BUTTON9 sets the raw button index 9 on
port 1. -/
theorem C10_button_map_witness :
    ((['2'] : List Char) ≠ [] ∧ (['9'] : List Char) ≠ [] ∧
      1 ≤ digitsVal ['2'] ∧ digitsVal ['2'] ≤ 3 ∧ digitsVal ['9'] ≤ 11) ∧
    ioev_ctxtbl exMatrix (playerChars ++ ['2'] ++ '_' :: (buttonChars ++ ['9']))
        true =
      joypadSet exMatrix (digitsVal ['2'] - 1)
        (if 1 ≤ digitsVal ['9'] ∧ digitsVal ['9'] ≤ 6 then
           (remaptbl.getD (digitsVal ['9'] - 1) 0).toNat
         else digitsVal ['9']) true :=
  ⟨⟨by decide, by decide, by decide, by decide, by decide⟩,
   C10_button_map exMatrix true ['2'] ['9'] (by decide) (by decide)
     (by decide) (by decide) (by decide) (by decide) (by decide)⟩

/-- Counterexample for C10 as stated: the label PLAYER1_BUTTON7, whose
button number lies outside 1..6, changes the matrix: it sets button index
7 on port 0. -/
theorem C10_cex :
    ioev_ctxtbl exMatrix lblP1B7 true 0 7 = true ∧ exMatrix 0 7 = false := by
  decide

end Arcan
